import Mathlib

/-!
Verification development for the ChatWME Telegram bot repository
(abdouuu19/tele).  The repository is a family of near-duplicate
versions of one program; the claims under study concern the API-key
rotation ledger, the retry controller `makeGeminiRequest`, and the
per-user `UserSession` (bounded history, language detection,
interest/keyword accumulators).

Two controller variants are embedded:
  * `makeGeminiRequestV1` — `src/bot.js` lines 181-255 (for-loop,
    `maxRetries = GEMINI_KEYS.length * 2`, no cool-down tracking,
    no HTTP-400 special case);
  * `makeGeminiRequestP0` — `src/unnamed/part_000` lines 124-196
    (while-loop with per-key cool-down, HTTP-400 fallback-model
    recursion bounded by `retryCount < 1`).

Upstream HTTP behaviour is modelled by an environment: for each loop
iteration the environment supplies the clock value (`Date.now()`) and
the outcome the upstream call would produce at that iteration.
Timestamps are naturals (milliseconds).
-/

namespace ChatWME

/-- Outcome of one upstream HTTP call: either a valid candidate text, or
an error carrying the optional HTTP status (`error.response?.status`)
and the error message. A 2xx response without candidates is `err none`
(the thrown `No valid response` error has no response status). -/
inductive Outcome where
  | ok (text : String)
  | err (status : Option Nat) (msg : String)
deriving DecidableEq, Repr

def Outcome.isOk : Outcome → Bool
  | .ok _ => true
  | .err _ _ => false

/-- Environment step for one loop iteration: the current clock value and
the outcome the upstream would return if a call is issued. -/
structure Step where
  now : Nat
  outcome : Outcome

/-- Key Rotation Ledger state: the module-level `currentKeyIndex` and
`rateLimitResetTime` of `src/unnamed/part_000` (bot.js has the index
only). `cool i = some t` models `rateLimitResetTime[i] = t`;
`none` models an absent entry. -/
structure KeyState where
  idx : Nat
  cool : Nat → Option Nat

/-- `rotateApiKey` (part_000 lines 105-108, bot.js lines 63-66):
`currentKeyIndex = (currentKeyIndex + 1) % GEMINI_KEYS.length`.
`n` is `GEMINI_KEYS.length`. -/
def rotateApiKey (n : Nat) (st : KeyState) : KeyState :=
  { st with idx := (st.idx + 1) % n }

/-- `canUseCurrentKey` (part_000 lines 110-114):
`!resetTime || now >= resetTime` for the current key. -/
def canUseCurrentKey (st : KeyState) (now : Nat) : Bool :=
  match st.cool st.idx with
  | none => true
  | some t => decide (t ≤ now)

/-- The marking half of `handleRateLimit` (part_000 line 118):
`rateLimitResetTime[currentKeyIndex] = now + 60 * 1000`. -/
def markCoolingCurrent (now : Nat) (st : KeyState) : KeyState :=
  { st with cool := fun i => if i = st.idx then some (now + 60 * 1000) else st.cool i }

/-- `handleRateLimit` (part_000 lines 116-121): mark the current key
cooling for 60s, then rotate. -/
def handleRateLimit (n : Nat) (now : Nat) (st : KeyState) : KeyState :=
  rotateApiKey n (markCoolingCurrent now st)

/-- Models configuration of part_000, lines 43-49. -/
def MODELS_TEXT : String := "gemini-2.0-flash-exp"

def MODELS_FALLBACK : String := "gemini-1.5-flash"

/-- Exit of one while-loop activation of the part_000 `makeGeminiRequest`:
success, the thrown `Invalid request format` error (HTTP 400 with no
fallback available), the thrown `All API keys exhausted` error
(attempt budget consumed), or the recursive call site
`return await makeGeminiRequest(MODELS.FALLBACK, ..., retryCount + 1)`. -/
inductive ExitKind where
  | ok (text : String)
  | badRequest
  | exhausted
  | wantFallback
deriving DecidableEq, Repr

/-- One while-loop activation of the part_000 `makeGeminiRequest`
(lines 124-196).  `fuel = maxAttempts - attempts` (every branch of the
loop body increments `attempts`).  `i` indexes environment steps; the
returned list is the trace of outcomes consumed by upstream calls (so
its length is the number of upstream HTTP calls issued) and the final
`Nat` is the next environment index. -/
def runAttempts (n : Nat) (env : Nat → Step) (model : String) (retryCount : Nat) :
    Nat → Nat → KeyState → List Outcome → ExitKind × KeyState × List Outcome × Nat
  | 0, i, st, tr => (.exhausted, st, tr, i)
  | fuel + 1, i, st, tr =>
    let step := env i
    if canUseCurrentKey st step.now = false then
      -- the skip branch: not usable, so rotate, count the iteration, loop
      runAttempts n env model retryCount fuel (i + 1) (rotateApiKey n st) tr
    else
      match step.outcome with
      | .ok t => (.ok t, st, tr ++ [.ok t], i + 1)
      | .err status msg =>
        if status = some 429 then
          runAttempts n env model retryCount fuel (i + 1)
            (handleRateLimit n step.now st) (tr ++ [.err status msg])
        else if status = some 400 then
          if model ≠ MODELS_FALLBACK ∧ retryCount < 1 then
            (.wantFallback, st, tr ++ [.err status msg], i + 1)
          else
            (.badRequest, st, tr ++ [.err status msg], i + 1)
        else
          runAttempts n env model retryCount fuel (i + 1)
            (rotateApiKey n st) (tr ++ [.err status msg])

/-- The part_000 `makeGeminiRequest(model, prompt, imageData, retryCount = 0)`
called from the outside (retryCount 0): run the loop with
`maxAttempts = GEMINI_KEYS.length * 2`; on an HTTP 400 with the fallback
still available, re-run the whole loop against `MODELS.FALLBACK` with
`retryCount = 1` (the global ledger state persists across the recursion). -/
def makeGeminiRequestP0 (n : Nat) (env : Nat → Step) (model : String)
    (st : KeyState) : ExitKind × KeyState × List Outcome :=
  match runAttempts n env model 0 (n * 2) 0 st [] with
  | (.wantFallback, st1, tr1, i1) =>
    (match runAttempts n env MODELS_FALLBACK 1 (n * 2) i1 st1 tr1 with
     | (e, st2, tr2, _) => (e, st2, tr2))
  | (e, st1, tr1, _) => (e, st1, tr1)

/-- Result of the `src/bot.js` `makeGeminiRequest` (lines 181-255):
a reply text, a thrown `All API keys exhausted. Last error: ...`, or the
implicit `undefined` produced when the for-loop runs to completion
without returning or throwing. -/
inductive ResultV1 where
  | ok (text : String)
  | exhausted (msg : String)
  | undef
deriving DecidableEq, Repr

/-- The for-loop body of bot.js `makeGeminiRequest`.  `fuel` is
`maxRetries - attempt`; `fuel = 0` after the match corresponds to
`attempt === maxRetries - 1`.  bot.js keeps no cool-down state, so the
environment is just the outcome per iteration; every iteration issues
one upstream call.  Returns (result, currentKeyIndex, number of calls). -/
def geminiV1Go (n : Nat) (env : Nat → Outcome) :
    Nat → Nat → Nat → Nat → ResultV1 × Nat × Nat
  | 0, _, idx, calls => (.undef, idx, calls)
  | fuel + 1, i, idx, calls =>
    match env i with
    | .ok t => (.ok t, idx, calls + 1)
    | .err status msg =>
      if status = some 429 ∨ status = some 403 then
        -- rate-limit branch: rotate and loop, skipping the exhaustion check
        geminiV1Go n env fuel (i + 1) ((idx + 1) % n) (calls + 1)
      else if fuel = 0 then
        (.exhausted ("All API keys exhausted. Last error: " ++ msg), idx, calls + 1)
      else
        geminiV1Go n env fuel (i + 1) ((idx + 1) % n) (calls + 1)

/-- bot.js `makeGeminiRequest(prompt)` with `maxRetries = GEMINI_KEYS.length * 2`. -/
def makeGeminiRequestV1 (n : Nat) (env : Nat → Outcome) (idx : Nat) :
    ResultV1 × Nat × Nat :=
  geminiV1Go n env (n * 2) 0 idx 0

/-! ## String helpers shared by the session embeddings -/

/-- JS `a.slice(-n)` on arrays: the last `n` elements (all of them when
`n ≥ length`). -/
def takeLast (n : Nat) (l : List α) : List α :=
  l.drop (l.length - n)

/-- JS `arr.push(e)` followed by `if (arr.length > cap) arr = arr.slice(-cap)`. -/
def pushCap (cap : Nat) (l : List α) (e : α) : List α :=
  let h := l ++ [e]
  if cap < h.length then takeLast cap h else h

/-- Does the char list start with the given pattern? -/
def charsStartWith : List Char → List Char → Bool
  | _, [] => true
  | [], _ :: _ => false
  | c :: cs, p :: ps => c = p && charsStartWith cs ps

/-- Does the char list contain the pattern as a contiguous run? -/
def charsContains : List Char → List Char → Bool
  | [], pat => pat.isEmpty
  | c :: cs, pat => charsStartWith (c :: cs) pat || charsContains cs pat

/-- JS `s.includes(pat)` (substring containment). -/
def strContains (s pat : String) : Bool :=
  charsContains s.data pat.data

/-- JS `String.prototype.toLowerCase`, restricted to the alphabets the
program actually manipulates: ASCII plus the accented Latin letters of
its French word lists (Arabic script has no case).  The builtin
`Char.toLower` is ASCII-only, so the accented uppercase letters are
mapped explicitly. -/
def charToLowerJs (c : Char) : Char :=
  if 65 ≤ c.toNat ∧ c.toNat ≤ 90 then Char.ofNat (c.toNat + 32)
  else match c with
    | 'À' => 'à' | 'Â' => 'â' | 'Ä' => 'ä' | 'É' => 'é' | 'È' => 'è'
    | 'Ê' => 'ê' | 'Ë' => 'ë' | 'Ï' => 'ï' | 'Î' => 'î' | 'Ô' => 'ô'
    | 'Ö' => 'ö' | 'Ù' => 'ù' | 'Û' => 'û' | 'Ü' => 'ü' | 'Ÿ' => 'ÿ'
    | 'Ç' => 'ç' | c => c

def toLowerJs (s : String) : String :=
  String.mk (s.data.map charToLowerJs)

/-- Characters matched by `\w` (no unicode flag): `[A-Za-z0-9_]`. -/
def isWordChar (c : Char) : Bool :=
  c.isAlpha || c.isDigit || c = '_'

/-- Maximal runs of word characters, i.e. the matches of `/\b\w+\b/g`.
`acc` holds the current run reversed. -/
def wordRunsAux : List Char → List Char → List (List Char)
  | [], acc => if acc.isEmpty then [] else [acc.reverse]
  | c :: cs, acc =>
    if isWordChar c then wordRunsAux cs (c :: acc)
    else if acc.isEmpty then wordRunsAux cs []
    else acc.reverse :: wordRunsAux cs []

def wordRuns (l : List Char) : List (List Char) :=
  wordRunsAux l []

/-! ## UserSession of `src/bot.js` lines 69-176 (variant 1) -/

/-- A `conversationHistory` entry: `{ role, content, timestamp: Date.now() }`. -/
structure Entry where
  role : String
  content : String
  timestamp : Nat
deriving DecidableEq, Repr

/-- `UserSession` of bot.js variant 1 (constructor lines 70-80).
`contextKeywords` models the JS `Set` as its insertion-ordered element
list. -/
structure SessionV1 where
  userId : Nat
  conversationHistory : List Entry
  lastActivity : Nat
  preferredLanguage : String
  messageCount : Nat
  personality : String
  interests : List String
  created : Nat
  contextKeywords : List String
deriving Repr

/-- `new UserSession(userId)` at time `now`. -/
def newSessionV1 (uid now : Nat) : SessionV1 :=
  { userId := uid, conversationHistory := [], lastActivity := now,
    preferredLanguage := "auto", messageCount := 0,
    personality := "friendly", interests := [], created := now,
    contextKeywords := [] }

/-- JS `Set.add` on the insertion-ordered list model. -/
def setAdd (l : List String) (k : String) : List String :=
  if l.contains k then l else l ++ [k]

/-- `extractKeywords` (bot.js lines 101-114): tokens are the matches of
`/\b\w{3,}\b/g` on the lower-cased text (maximal word-char runs of
length ≥ 3); those of length > 3 are added to the set; the set is
trimmed to its most recent 50 elements. -/
def extractKeywords (text : String) (ks : List String) : List String :=
  let toks := ((wordRuns (toLowerJs text).data).map fun cs => String.mk cs).filter
    fun w => 3 ≤ w.length
  let ks := toks.foldl (fun acc k => if 3 < k.length then setAdd acc k else acc) ks
  if 50 < ks.length then takeLast 50 ks else ks

/-- `addMessage(role, content)` (bot.js lines 82-99) at time `now`:
push the entry, trim the history to its last 12 entries, update
`lastActivity`, increment `messageCount`, extract keywords. -/
def addMessage (now : Nat) (role content : String) (s : SessionV1) : SessionV1 :=
  { s with conversationHistory := pushCap 12 s.conversationHistory ⟨role, content, now⟩,
           lastActivity := now,
           messageCount := s.messageCount + 1,
           contextKeywords := extractKeywords content s.contextKeywords }

/-- `detectLanguage` (bot.js lines 123-131): Arabic block ⇒ `ar`;
else accented French letter present and **no** ASCII letter ⇒ `fr`;
else `en`.  Stateless — it reads and writes no session field. -/
def hasArabicChar (t : String) : Bool :=
  t.data.any fun c => decide (0x600 ≤ c.toNat ∧ c.toNat ≤ 0x6FF)

/-- The character class of `/[àâäéèêëïîôöùûüÿç]/i` (both cases, per the
`i` flag). -/
def frenchChars : List Char :=
  ['à', 'â', 'ä', 'é', 'è', 'ê', 'ë', 'ï', 'î', 'ô', 'ö', 'ù', 'û', 'ü', 'ÿ', 'ç',
   'À', 'Â', 'Ä', 'É', 'È', 'Ê', 'Ë', 'Ï', 'Î', 'Ô', 'Ö', 'Ù', 'Û', 'Ü', 'Ÿ', 'Ç']

def hasFrenchAccent (t : String) : Bool :=
  t.data.any fun c => frenchChars.contains c

/-- `/[a-zA-Z]/` test. -/
def hasAsciiLetter (t : String) : Bool :=
  t.data.any fun c => decide (('a' ≤ c ∧ c ≤ 'z') ∨ ('A' ≤ c ∧ c ≤ 'Z'))

def detectLanguageV1 (t : String) : String :=
  if hasArabicChar t then ("ar")
  else if hasFrenchAccent t && !hasAsciiLetter t then ("fr")
  else ("en")

/-- `clearHistory()` (bot.js lines 133-137): empty the history, clear the
keyword set, stamp `lastActivity = Date.now()`.  (`interests`,
`messageCount`, `preferredLanguage` are untouched.) -/
def clearHistory (now : Nat) (s : SessionV1) : SessionV1 :=
  { s with conversationHistory := [], contextKeywords := [], lastActivity := now }

/-- The `interestMap` of `updateInterests` (bot.js lines 151-175).
(The keyword `"AI"` is kept verbatim: the source tests
`lowerMessage.includes(\x27AI\x27)`, which can never match the lower-cased
message.) -/
def interestMap : List (String × List String) :=
  [("tech", ["coding", "programming", "tech", "AI", "computer", "software", "app",
             "برمجة", "تقنية", "كمبيوتر"]),
   ("sports", ["football", "soccer", "basketball", "sport", "match", "game",
               "كرة القدم", "رياضة", "مباراة"]),
   ("culture", ["music", "art", "culture", "movie", "book", "film",
                "موسيقى", "فن", "ثقافة", "فيلم"]),
   ("education", ["study", "school", "university", "learn", "education",
                  "دراسة", "مدرسة", "جامعة", "تعلم"]),
   ("business", ["work", "job", "business", "money", "career",
                 "عمل", "وظيفة", "تجارة", "مال"]),
   ("health", ["health", "medicine", "doctor", "exercise", "fitness",
               "صحة", "طبيب", "رياضة", "لياقة"])]

/-- `updateInterests(message)` (bot.js lines 151-175): for each interest
category whose keyword list hits the lower-cased message as a substring,
push the category if absent; then trim to the last 5. -/
def updateInterests (message : String) (s : SessionV1) : SessionV1 :=
  let lower := toLowerJs message
  let ints := interestMap.foldl
    (fun acc p =>
      if p.2.any (fun k => strContains lower k) then
        if acc.contains p.1 then acc else acc ++ [p.1]
      else acc)
    s.interests
  { s with interests := if 5 < ints.length then takeLast 5 ints else ints }

/-! ## UserSession of the second bot.js program (lines 1537-1587) -/

/-- The sticky-language session: `language` starts `null` and is pinned
by the first `detectLanguage` call. -/
structure SessionV2 where
  userId : Nat
  conversationHistory : List Entry
  lastActivity : Nat
  language : Option String
  messageCount : Nat
  createdAt : Nat
deriving Repr

/-- `detectLanguage` of the second program (bot.js lines 1563-1574):
detect `ar`/`en` from the Arabic block, pin the result on the session on
the first call, and always return the pinned value. -/
def detectLanguageV2 (s : SessionV2) (text : String) : String × SessionV2 :=
  let detected := if hasArabicChar text then ("ar") else ("en")
  match s.language with
  | none => (detected, { s with language := some detected })
  | some l => (l, s)

/-! ## detectLanguage of `src/unnamed/part_000` lines 89-97 -/

def darjaKeywords : List String :=
  ["راك", "شكون", "وش", "نشاط", "بصح", "شنو", "كيفاش", "مليح", "برك"]

/-- part_000 `detectLanguage`: Arabic block present ⇒ `dz` when a darja
keyword occurs in the raw text, else `ar`; no Arabic ⇒ `en`. -/
def detectLanguageP0 (t : String) : String :=
  if hasArabicChar t then
    if darjaKeywords.any (fun k => strContains t k) then ("dz") else ("ar")
  else ("en")

/-! ## The per-message pipeline of `src/bot.js` lines 324-421 -/

/-- `isCommand` (bot.js lines 324-327): `text.startsWith(slash) && text.length > 1`
(the `!text` guard is subsumed: the empty string starts with nothing). -/
def isCommand (t : String) : Bool :=
  charsStartWith t.data ['/'] && decide (1 < t.length)

/-- `creatorQueries` (bot.js lines 349-354). -/
def creatorQueries : List String :=
  ["who made you", "who created you", "your creator", "developer", "who built you",
   "your maker", "who programmed you", "who designed you", "creator contact",
   "من صنعك", "من عملك", "شكون صنعك", "مطورك", "من بناك", "من برمجك", "منو عملك",
   "qui t\x27a créé", "qui t\x27a fait", "ton créateur", "développeur",
   "qui t\x27a programmé"]

/-- `creatorQueries.some(query => messageText.toLowerCase().includes(query))`
(bot.js line 356). -/
def isCreatorQuery (t : String) : Bool :=
  creatorQueries.any fun q => strContains (toLowerJs t) q

/-- `creatorResponses[detectedLang] || creatorResponses[en]`
(bot.js lines 357-364). -/
def creatorResponse (lang : String) : String :=
  if lang = "ar" then
    "👨‍💻 **تم إنشائي من قبل عبدو**! 🇩🇿\n\n يمكنك التواصل معه مباشرة من خلال الروابط أدناه 🚀\n\nيسعدني أن أكون مساعدك الذكي! 😊"
  else if lang = "fr" then
    "👨‍💻 **J\x27ai été créé par Abdou**! 🇩🇿\n\n Vous pouvez le contacter directement via les liens ci-dessous! 🚀\n\nJe suis heureux d\x27être votre assistant intelligent! 😊"
  else
    "👨‍💻 **I was created by Abdou**! 🇩🇿\n\n You can reach out to him directly through the links below! 🚀\n\nI\x27m happy to be your intelligent assistant! 😊"

/-- Resolution of the awaited `makeGeminiRequest(prompt)` call inside
`handleTextMessage`: the reply text, or a raised error. -/
inductive Upstream where
  | ok (reply : String)
  | fail (msg : String)

/-- Session effects of `handleTextMessage(chatId, messageText, userName,
messageId)` (bot.js lines 330-421), for an existing session `s`:
commands are skipped; otherwise `updateInterests` then
`addMessage(user, ...)` run **before** the upstream call; the creator
branch answers locally and records the canned response; otherwise on
upstream success the trimmed reply is recorded, and on upstream failure
the `catch` block sends an apology but performs no session mutation —
no rollback of the user entry or of `messageCount`.  (Telegram sends,
the typing indicator and `generatePrompt` are I/O or pure presentation
and have no session effect.) -/
def handleTextMessage (now : Nat) (messageText : String) (up : Upstream)
    (s : SessionV1) : SessionV1 :=
  if isCommand messageText then s
  else
    let s1 := addMessage now ("user") messageText (updateInterests messageText s)
    if isCreatorQuery messageText then
      addMessage now ("assistant") (creatorResponse (detectLanguageV1 messageText)) s1
    else
      match up with
      | .ok r => addMessage now ("assistant") r.trim s1
      | .fail _ => s1

/-- Folding a list of `(role, content, timestamp)` triples through
`addMessage`, the shape of every addMessage call sequence of claim C6. -/
def runAddMessages (s : SessionV1) (msgs : List (String × String × Nat)) : SessionV1 :=
  msgs.foldl (fun s m => addMessage m.2.2 m.1 m.2.1 s) s

/-- The history entry a `(role, content, timestamp)` triple creates. -/
def entryOf (m : String × String × Nat) : Entry :=
  ⟨m.1, m.2.1, m.2.2⟩

/-! ## Helper lemmas -/

theorem length_takeLast (n : Nat) (l : List α) :
    (takeLast n l).length = min n l.length := by
  simp only [takeLast, List.length_drop]
  omega

/-- Appending one element to an already-trimmed buffer and trimming again
is the same as trimming the fully appended list: the single step of the
FIFO cap. -/
theorem pushCap_takeLast (cap : Nat) (l : List α) (e : α) :
    pushCap cap (takeLast cap l) e = takeLast cap (l ++ [e]) := by
  rcases Nat.lt_or_ge l.length cap with h | h
  · have h1 : l.length - cap = 0 := by omega
    have h2 : l.length + 1 - cap = 0 := by omega
    simp only [pushCap, takeLast, h1, List.drop_zero, List.length_append,
      List.length_singleton, h2]
    rw [if_neg (by simp; omega)]
  · rcases Nat.eq_zero_or_pos cap with hc | hc
    · subst hc
      simp only [pushCap, takeLast, Nat.sub_zero, List.length_append,
        List.length_singleton]
      rw [if_pos (by omega)]
      rw [List.drop_eq_nil_of_le (by simp), List.drop_eq_nil_of_le (by simp)]
    · have hd : (l.drop (l.length - cap)).length = cap := by
        simp only [List.length_drop]; omega
      simp only [pushCap, takeLast]
      rw [if_pos (by simp [hd])]
      simp only [List.length_append, hd, List.length_singleton]
      have h1 : cap + 1 - cap = 1 := by omega
      rw [h1, List.drop_append_of_le_length (by omega),
        List.drop_append_of_le_length (by omega), List.drop_drop]
      have h2 : l.length - cap + 1 = l.length + 1 - cap := by omega
      rw [h2]

theorem getLast?_takeLast_concat (cap : Nat) (hcap : 1 ≤ cap) (l : List α) (e : α) :
    (takeLast cap (l ++ [e])).getLast? = some e := by
  simp only [takeLast, List.length_append, List.length_singleton]
  rw [List.drop_append_of_le_length (by omega)]
  exact List.getLast?_concat _

/-- Every element of the trace is an error. -/
def allErr (l : List Outcome) : Bool :=
  l.all fun o => !o.isOk

theorem allErr_append_err {tr : List Outcome} {x : Outcome}
    (h : allErr tr = true) (hx : x.isOk = false) : allErr (tr ++ [x]) = true := by
  simp only [allErr, List.all_append, List.all_cons, List.all_nil, Bool.and_true,
    Bool.and_eq_true, hx] at h ⊢
  simp [h]

/-- One loop activation issues at most `fuel` upstream calls. -/
theorem runAttempts_length (n : Nat) (env : Nat → Step) (model : String) (rc : Nat) :
    ∀ (fuel i : Nat) (st : KeyState) (tr : List Outcome),
      ((runAttempts n env model rc fuel i st tr).2.2.1).length ≤ tr.length + fuel := by
  intro fuel
  induction fuel with
  | zero => intro i st tr; simp [runAttempts]
  | succ fuel ih =>
    intro i st tr
    simp only [runAttempts]
    split
    · exact le_trans (ih _ _ _) (by omega)
    · split
      · simp
      · split
        · exact le_trans (ih _ _ _) (by simp; omega)
        · split
          · split
            · simp
            · simp
          · exact le_trans (ih _ _ _) (by simp; omega)

/-- If an activation exits with a reply, its trace ends in that success
and everything before it is an error; if it exits any other way, the
whole trace is errors (given the inherited trace was). -/
theorem runAttempts_shape (n : Nat) (env : Nat → Step) (model : String) (rc : Nat) :
    ∀ (fuel i : Nat) (st : KeyState) (tr : List Outcome), allErr tr = true →
      (∀ t, (runAttempts n env model rc fuel i st tr).1 = ExitKind.ok t →
        ((runAttempts n env model rc fuel i st tr).2.2.1).getLast? = some (Outcome.ok t) ∧
        allErr ((runAttempts n env model rc fuel i st tr).2.2.1).dropLast = true) ∧
      ((∀ t, ¬ (runAttempts n env model rc fuel i st tr).1 = ExitKind.ok t) →
        allErr (runAttempts n env model rc fuel i st tr).2.2.1 = true) := by
  intro fuel
  induction fuel with
  | zero =>
    intro i st tr htr
    constructor
    · intro t h
      simp [runAttempts] at h
    · intro _
      simpa [runAttempts] using htr
  | succ fuel ih =>
    intro i st tr htr
    simp only [runAttempts]
    split
    · exact ih _ _ _ htr
    · split
      · constructor
        · intro t h
          simp only [ExitKind.ok.injEq] at h
          subst h
          refine ⟨List.getLast?_concat _, ?_⟩
          rw [List.dropLast_concat]
          exact htr
        · intro h
          exact absurd rfl (h _)
      · split
        · exact ih _ _ _ (allErr_append_err htr rfl)
        · split
          · split
            · constructor
              · intro t h
                simp at h
              · intro _
                exact allErr_append_err htr rfl
            · constructor
              · intro t h
                simp at h
              · intro _
                exact allErr_append_err htr rfl
          · exact ih _ _ _ (allErr_append_err htr rfl)

/-- Iterating the rotation advances the cursor by `k` modulo `n`. -/
theorem rotateApiKey_iterate_idx (n : Nat) :
    ∀ (k : Nat) (st : KeyState), st.idx < n →
      ((rotateApiKey n)^[k] st).idx = (st.idx + k) % n := by
  intro k
  induction k with
  | zero =>
    intro st h
    simpa using (Nat.mod_eq_of_lt h).symm
  | succ k ih =>
    intro st h
    rw [Function.iterate_succ_apply']
    show (((rotateApiKey n)^[k] st).idx + 1) % n = (st.idx + (k + 1)) % n
    rw [ih st h]
    exact (Nat.mod_modEq (st.idx + k) n).add_right 1

/-- Folding `addMessage` preserves the "history is the trimmed tail of
everything appended so far" invariant. -/
theorem runAddMessages_history :
    ∀ (msgs : List (String × String × Nat)) (s : SessionV1) (F : List Entry),
      s.conversationHistory = takeLast 12 F →
      (runAddMessages s msgs).conversationHistory =
        takeLast 12 (F ++ msgs.map entryOf) := by
  intro msgs
  induction msgs with
  | nil =>
    intro s F h
    simpa [runAddMessages] using h
  | cons m ms ih =>
    intro s F h
    have h2 : (addMessage m.2.2 m.1 m.2.1 s).conversationHistory =
        takeLast 12 (F ++ [entryOf m]) := by
      show pushCap 12 s.conversationHistory ⟨m.1, m.2.1, m.2.2⟩ =
        takeLast 12 (F ++ [entryOf m])
      rw [h]
      exact pushCap_takeLast 12 F (entryOf m)
    have h3 := ih (addMessage m.2.2 m.1 m.2.1 s) (F ++ [entryOf m]) h2
    show (runAddMessages (addMessage m.2.2 m.1 m.2.1 s) ms).conversationHistory = _
    rw [h3, List.append_assoc]
    rfl

theorem runAddMessages_count :
    ∀ (msgs : List (String × String × Nat)) (s : SessionV1),
      (runAddMessages s msgs).messageCount = s.messageCount + msgs.length := by
  intro msgs
  induction msgs with
  | nil => intro s; simp [runAddMessages]
  | cons m ms ih =>
    intro s
    show (runAddMessages (addMessage m.2.2 m.1 m.2.1 s) ms).messageCount = _
    rw [ih]
    show s.messageCount + 1 + ms.length = s.messageCount + (ms.length + 1)
    omega

/-- `pushCap` is exactly "append then keep the last `cap`". -/
theorem pushCap_eq_takeLast (cap : Nat) (l : List α) (e : α) :
    pushCap cap l e = takeLast cap (l ++ [e]) := by
  simp only [pushCap]
  split
  · rfl
  · have h : (l ++ [e]).length - cap = 0 := by
      simp only [List.length_append, List.length_singleton] at *
      omega
    simp only [takeLast, h, List.drop_zero]

/-! ## Claim theorems -/

/-- C1: the claim says every `makeGeminiRequest` invocation in which no
upstream call succeeds fails with an `ExhaustedError` carrying the last
observed error message and never returns a non-error value.  The bot.js
variant violates it: with one credential (`maxRetries = 2`) and both
iterations failing with HTTP 429, the rate-limit branch `continue`s past
the `attempt === maxRetries - 1` exhaustion check, the for-loop runs to
completion, and the async function resolves with `undefined` — a
non-error value — instead of throwing. -/
theorem c1_rate_limit_fall_through :
    makeGeminiRequestV1 1 (fun _ => Outcome.err (some 429) "Too Many Requests") 0 =
      (ResultV1.undef, 0, 2) := rfl

/-- C2 counterexample: in the part_000 variant with one credential
(`maxAttempts = 1 * 2 = 2`), a first call answered HTTP 400 triggers the
fallback-model recursion with a fresh attempts budget; two further
failing calls inside it bring the total number of upstream HTTP calls of
the invocation to 3 > maxAttempts. -/
theorem c2_counterexample :
    ((makeGeminiRequestP0 1
        (fun i => if i = 0 then ⟨0, Outcome.err (some 400) "bad"⟩
                  else ⟨0, Outcome.err (some 500) "server"⟩)
        MODELS_TEXT ⟨0, fun _ => none⟩).2.2).length = 3 ∧
    ¬ (3 ≤ 1 * 2) :=
  ⟨rfl, by decide⟩

/-- C2 amended: each while-loop activation of the part_000
`makeGeminiRequest` issues at most `maxAttempts = n * 2` upstream calls,
and the HTTP-400 fallback re-runs the loop at most once, so a top-level
invocation issues at most `2 * maxAttempts` upstream calls in total;
moreover, as soon as an upstream call succeeds the extracted reply text
is returned immediately: the trace ends at that success and every
earlier call of the invocation was an error. -/
theorem c2_amended_call_bound :
    ∀ (n : Nat) (env : Nat → Step) (model : String) (st : KeyState),
      ((makeGeminiRequestP0 n env model st).2.2).length ≤ 2 * (n * 2) ∧
      ∀ t, (makeGeminiRequestP0 n env model st).1 = ExitKind.ok t →
        ((makeGeminiRequestP0 n env model st).2.2).getLast? = some (Outcome.ok t) ∧
        allErr ((makeGeminiRequestP0 n env model st).2.2).dropLast = true := by
  intro n env model st
  have hlen1 := runAttempts_length n env model 0 (n * 2) 0 st []
  have hshape1 := runAttempts_shape n env model 0 (n * 2) 0 st [] rfl
  unfold makeGeminiRequestP0
  rcases h1 : runAttempts n env model 0 (n * 2) 0 st [] with ⟨e1, st1, tr1, i1⟩
  rw [h1] at hlen1 hshape1
  dsimp only at hlen1 hshape1
  simp only [List.length_nil, Nat.zero_add] at hlen1
  cases e1 with
  | wantFallback =>
    have htr1 : allErr tr1 = true := hshape1.2 fun t h => ExitKind.noConfusion h
    have hlen2 := runAttempts_length n env MODELS_FALLBACK 1 (n * 2) i1 st1 tr1
    have hshape2 := runAttempts_shape n env MODELS_FALLBACK 1 (n * 2) i1 st1 tr1 htr1
    rcases h2 : runAttempts n env MODELS_FALLBACK 1 (n * 2) i1 st1 tr1 with ⟨e2, st2, tr2, i2⟩
    rw [h2] at hlen2 hshape2
    dsimp only at hlen2 hshape2 ⊢
    rw [h2]
    dsimp only
    exact ⟨by omega, hshape2.1⟩
  | ok t =>
    dsimp only
    exact ⟨by omega, hshape1.1⟩
  | badRequest =>
    dsimp only
    exact ⟨by omega, hshape1.1⟩
  | exhausted =>
    dsimp only
    exact ⟨by omega, hshape1.1⟩

/-- C2 witness: a run whose first call succeeds returns that reply after
exactly that one call. -/
theorem c2_witness :
    ((makeGeminiRequestP0 1 (fun _ => ⟨0, Outcome.ok ("hi")⟩) MODELS_TEXT
        ⟨0, fun _ => none⟩).2.2).getLast? = some (Outcome.ok ("hi")) ∧
    allErr ((makeGeminiRequestP0 1 (fun _ => ⟨0, Outcome.ok ("hi")⟩) MODELS_TEXT
        ⟨0, fun _ => none⟩).2.2).dropLast = true :=
  (c2_amended_call_bound 1 (fun _ => ⟨0, Outcome.ok ("hi")⟩) MODELS_TEXT
    ⟨0, fun _ => none⟩).2 ("hi") rfl

/-- C3 counterexample: the claim requires that with no fallback
configured an HTTP 400 fails immediately with a `BadRequest` error after
exactly one upstream call.  The bot.js variant has no fallback and no
400 handling at all: with one credential the 400 is treated as a generic
error, the key is rotated, a second call is made, and the invocation
ends with the exhaustion error after 2 upstream calls. -/
theorem c3_counterexample :
    makeGeminiRequestV1 1 (fun _ => Outcome.err (some 400) "Bad Request") 0 =
      (ResultV1.exhausted ("All API keys exhausted. Last error: Bad Request"), 0, 2) :=
  rfl

/-- C3 amended: in the part_000 variant, when the usable current key
answers HTTP 400, the controller neither rotates nor consumes remaining
attempts: if the fallback model is unavailable (already running on it,
or `retryCount ≥ 1`) it throws `Invalid request format` at once after
that single call; otherwise it switches to the one fallback re-run. -/
theorem c3_amended_bad_request :
    ∀ (n : Nat) (env : Nat → Step) (model : String) (rc fuel i : Nat)
      (st : KeyState) (tr : List Outcome) (msg : String),
      canUseCurrentKey st (env i).now = true →
      (env i).outcome = Outcome.err (some 400) msg →
      ((model = MODELS_FALLBACK ∨ 1 ≤ rc) →
        runAttempts n env model rc (fuel + 1) i st tr =
          (ExitKind.badRequest, st, tr ++ [Outcome.err (some 400) msg], i + 1)) ∧
      (model ≠ MODELS_FALLBACK → rc = 0 →
        runAttempts n env model rc (fuel + 1) i st tr =
          (ExitKind.wantFallback, st, tr ++ [Outcome.err (some 400) msg], i + 1)) := by
  intro n env model rc fuel i st tr msg hcan hout
  constructor
  · intro hfb
    have hno : ¬ (model ≠ MODELS_FALLBACK ∧ rc < 1) := by
      rcases hfb with h | h
      · exact fun hc => hc.1 h
      · exact fun hc => by omega
    simp [runAttempts, hcan, hout, hno]
    intro h1 h2
    exact hno ⟨h1, by omega⟩
  · intro hm hrc
    have hyes : model ≠ MODELS_FALLBACK ∧ rc < 1 := ⟨hm, by omega⟩
    simp [runAttempts, hcan, hout, hyes]

/-- C3 witness: one credential already on the fallback model; a single
400 answer produces the immediate bad-request exit with exactly one
upstream call, the ledger state untouched. -/
theorem c3_witness :
    runAttempts 1 (fun _ => ⟨0, Outcome.err (some 400) "bad"⟩) MODELS_FALLBACK 1 1 0
      ⟨0, fun _ => none⟩ [] =
      (ExitKind.badRequest, ⟨0, fun _ => none⟩, [Outcome.err (some 400) "bad"], 1) :=
  (c3_amended_bad_request 1 (fun _ => ⟨0, Outcome.err (some 400) "bad"⟩)
    MODELS_FALLBACK 1 0 0 ⟨0, fun _ => none⟩ [] "bad" rfl rfl).1 (Or.inl rfl)

/-- C4: marking a credential cooling at time `T` sets its reset entry to
`T + 60000` (and the entry survives the rotation `handleRateLimit`
performs afterwards); a usability check of that credential at any time
strictly before `T + 60000` reports it unusable and at any time at or
after `T + 60000` reports it usable — recovery is decided lazily at
read time, there is no timer in the model or the code. -/
theorem c4_cooling_lazy :
    ∀ (n : Nat) (st : KeyState) (T now : Nat),
      ((handleRateLimit n T st).cool st.idx = some (T + 60 * 1000)) ∧
      (now < T + 60 * 1000 →
        canUseCurrentKey (markCoolingCurrent T st) now = false) ∧
      (T + 60 * 1000 ≤ now →
        canUseCurrentKey (markCoolingCurrent T st) now = true) := by
  intro n st T now
  refine ⟨?_, ?_, ?_⟩
  · simp [handleRateLimit, rotateApiKey, markCoolingCurrent]
  · intro h
    simp only [canUseCurrentKey, markCoolingCurrent, if_pos rfl]
    simp
    omega
  · intro h
    simp only [canUseCurrentKey, markCoolingCurrent, if_pos rfl]
    simp
    omega

/-- C4 witness: a key marked at `T = 100` is unusable at 59000 and usable
again at 60100 = T + 60000. -/
theorem c4_witness :
    canUseCurrentKey (markCoolingCurrent 100 ⟨0, fun _ => none⟩) 59000 = false ∧
    canUseCurrentKey (markCoolingCurrent 100 ⟨0, fun _ => none⟩) 60100 = true :=
  ⟨(c4_cooling_lazy 1 ⟨0, fun _ => none⟩ 100 59000).2.1 (by omega),
   (c4_cooling_lazy 1 ⟨0, fun _ => none⟩ 100 60100).2.2 (by omega)⟩

/-- C5 counterexample: in the bot.js variant at lines 123-131 — one of
the two cited code locations of the claim — `detectLanguage` is stateless: it
neither reads nor writes any session field, so nothing is pinned, and a
second call on the same session with text of a different script returns
the fresh detection (`ar`), not the first result (`en`). -/
theorem c5_counterexample :
    detectLanguageV1 ("hello") = "en" ∧ detectLanguageV1 ("مرحبا") = "ar" ∧
    ("ar" : String) ≠ "en" :=
  ⟨rfl, rfl, by decide⟩

/-- C5 amended: only the second bot.js program (lines 1563-1574) pins the
language: after any first `detectLanguage` call the session language is
set, every later call — whatever script its text is in — returns the
very same value and leaves the session unchanged, and an explicit
override (`session.language = l`, the settings path of its `/start`
handler) makes every subsequent call return `l`. -/
theorem c5_amended_sticky :
    ∀ (s : SessionV2) (t t' : String),
      (detectLanguageV2 (detectLanguageV2 s t).2 t').1 = (detectLanguageV2 s t).1 ∧
      (detectLanguageV2 (detectLanguageV2 s t).2 t').2 = (detectLanguageV2 s t).2 ∧
      (∀ l, detectLanguageV2 { s with language := some l } t =
        (l, { s with language := some l })) := by
  intro s t t'
  cases h : s.language <;> simp [detectLanguageV2, h]

/-- C6: for every sequence of `addMessage` calls on a fresh session of
the bot.js variant (cap 12), the retained history is exactly the last 12
appended entries in insertion order, its length never exceeds 12,
`messageCount` counts every call and is never reset by truncation, so
`messageCount ≥ history.length` always holds after the run. -/
theorem c6_history_cap :
    ∀ (uid t0 : Nat) (msgs : List (String × String × Nat)),
      (runAddMessages (newSessionV1 uid t0) msgs).conversationHistory =
        takeLast 12 (msgs.map entryOf) ∧
      (runAddMessages (newSessionV1 uid t0) msgs).conversationHistory.length ≤ 12 ∧
      (runAddMessages (newSessionV1 uid t0) msgs).messageCount = msgs.length ∧
      (runAddMessages (newSessionV1 uid t0) msgs).conversationHistory.length ≤
        (runAddMessages (newSessionV1 uid t0) msgs).messageCount := by
  intro uid t0 msgs
  have h1 := runAddMessages_history msgs (newSessionV1 uid t0) [] rfl
  have h2 := runAddMessages_count msgs (newSessionV1 uid t0)
  simp only [List.nil_append] at h1
  refine ⟨h1, ?_, ?_, ?_⟩
  · rw [h1, length_takeLast]
    omega
  · simpa [newSessionV1] using h2
  · rw [h1, h2, length_takeLast, List.length_map]
    show min 12 msgs.length ≤ 0 + msgs.length
    omega

/-- C7 counterexample: `"café"` contains a Latin accented character and
no Arabic, so the claim requires `fr`; the code additionally requires
the absence of any ASCII letter (`!englishPattern.test(text)`), so it
returns `en`. -/
theorem c7_counterexample :
    detectLanguageV1 ("café") = "en" ∧ ("en" : String) ≠ "fr" :=
  ⟨rfl, by decide⟩

/-- C7 amended: any Arabic-script code point yields `ar` (refined to the
dialect tag `dz` in the part_000 variant when a darja keyword occurs in
the raw text); `fr` is returned only when an accented Latin character is
present AND no ASCII letter a-z/A-Z occurs (and no Arabic); everything
else — including accented text that also has plain ASCII letters — is
`en`.  The part_000 variant has no French branch at all: every
non-Arabic text is `en`. -/
theorem c7_amended_rule_table :
    ∀ t : String,
      ((∃ c ∈ t.data, 0x600 ≤ c.toNat ∧ c.toNat ≤ 0x6FF) →
        detectLanguageV1 t = "ar") ∧
      (¬ (∃ c ∈ t.data, 0x600 ≤ c.toNat ∧ c.toNat ≤ 0x6FF) →
        (∃ c ∈ t.data, c ∈ frenchChars) →
        ¬ (∃ c ∈ t.data, ('a' ≤ c ∧ c ≤ 'z') ∨ ('A' ≤ c ∧ c ≤ 'Z')) →
        detectLanguageV1 t = "fr") ∧
      (¬ (∃ c ∈ t.data, 0x600 ≤ c.toNat ∧ c.toNat ≤ 0x6FF) →
        ((∃ c ∈ t.data, ('a' ≤ c ∧ c ≤ 'z') ∨ ('A' ≤ c ∧ c ≤ 'Z')) ∨
          ¬ (∃ c ∈ t.data, c ∈ frenchChars)) →
        detectLanguageV1 t = "en") ∧
      ((∃ c ∈ t.data, 0x600 ≤ c.toNat ∧ c.toNat ≤ 0x6FF) →
        (∃ k ∈ darjaKeywords, strContains t k = true) →
        detectLanguageP0 t = "dz") ∧
      ((∃ c ∈ t.data, 0x600 ≤ c.toNat ∧ c.toNat ≤ 0x6FF) →
        (∀ k ∈ darjaKeywords, strContains t k = false) →
        detectLanguageP0 t = "ar") ∧
      (¬ (∃ c ∈ t.data, 0x600 ≤ c.toNat ∧ c.toNat ≤ 0x6FF) →
        detectLanguageP0 t = "en") := by
  intro t
  have hA : hasArabicChar t = true ↔
      (∃ c ∈ t.data, 0x600 ≤ c.toNat ∧ c.toNat ≤ 0x6FF) := by
    simp [hasArabicChar, List.any_eq_true]
  have hF : hasFrenchAccent t = true ↔ (∃ c ∈ t.data, c ∈ frenchChars) := by
    simp [hasFrenchAccent, List.any_eq_true]
  have hE : hasAsciiLetter t = true ↔
      (∃ c ∈ t.data, ('a' ≤ c ∧ c ≤ 'z') ∨ ('A' ≤ c ∧ c ≤ 'Z')) := by
    simp [hasAsciiLetter, List.any_eq_true]
  refine ⟨?_, ?_, ?_, ?_, ?_, ?_⟩
  · intro h
    simp [detectLanguageV1, hA.mpr h]
  · intro hna hf hne
    have h1 : hasArabicChar t = false := Bool.eq_false_iff.mpr fun hb => hna (hA.mp hb)
    have h2 : hasAsciiLetter t = false := Bool.eq_false_iff.mpr fun hb => hne (hE.mp hb)
    simp [detectLanguageV1, h1, h2, hF.mpr hf]
  · intro hna hcase
    have h1 : hasArabicChar t = false := Bool.eq_false_iff.mpr fun hb => hna (hA.mp hb)
    rcases hcase with he | hnf
    · simp [detectLanguageV1, h1, hE.mpr he]
    · have h2 : hasFrenchAccent t = false := Bool.eq_false_iff.mpr fun hb => hnf (hF.mp hb)
      simp [detectLanguageV1, h1, h2]
  · intro ha hd
    have h1 := hA.mpr ha
    have h2 : darjaKeywords.any (fun k => strContains t k) = true :=
      List.any_eq_true.mpr hd
    simp [detectLanguageP0, h1, h2]
  · intro ha hd
    have h1 := hA.mpr ha
    have h2 : darjaKeywords.any (fun k => strContains t k) = false := by
      rw [Bool.eq_false_iff]
      intro hb
      obtain ⟨k, hk, hck⟩ := List.any_eq_true.mp hb
      rw [hd k hk] at hck
      exact Bool.false_ne_true hck
    simp [detectLanguageP0, h1, h2]
  · intro hna
    have h1 : hasArabicChar t = false := Bool.eq_false_iff.mpr fun hb => hna (hA.mp hb)
    simp [detectLanguageP0, h1]

/-- C7 witness: the rule table evaluated at one input per rule. -/
theorem c7_witness :
    detectLanguageV1 ("سلام") = "ar" ∧ detectLanguageV1 ("àé") = "fr" ∧
    detectLanguageV1 ("hello") = "en" ∧ detectLanguageP0 ("كيفاش راك") = "dz" ∧
    detectLanguageP0 ("مرحبا") = "ar" ∧ detectLanguageP0 ("ok") = "en" :=
  ⟨(c7_amended_rule_table ("سلام")).1 (by decide),
   (c7_amended_rule_table ("àé")).2.1 (by decide) (by decide) (by decide),
   (c7_amended_rule_table ("hello")).2.2.1 (by decide) (Or.inl (by decide)),
   (c7_amended_rule_table ("كيفاش راك")).2.2.2.1 (by decide) (by decide),
   (c7_amended_rule_table ("مرحبا")).2.2.2.2.1 (by decide) (by decide),
   (c7_amended_rule_table ("ok")).2.2.2.2.2 (by decide)⟩

/-- C8: a single `rotateApiKey` maps the cursor `c` to `(c + 1) % n`, the
cursor stays a valid index, and `k` rotations with `n ∣ k` return the
cursor to its original value. -/
theorem c8_rotate_cycle :
    ∀ (n k : Nat) (st : KeyState), 1 ≤ n → st.idx < n →
      ((rotateApiKey n st).idx = (st.idx + 1) % n) ∧
      ((rotateApiKey n st).idx < n) ∧
      (((rotateApiKey n)^[k] st).idx < n) ∧
      (n ∣ k → ((rotateApiKey n)^[k] st).idx = st.idx) := by
  intro n k st hn hidx
  refine ⟨rfl, ?_, ?_, ?_⟩
  · exact Nat.mod_lt _ (by omega)
  · rw [rotateApiKey_iterate_idx n k st hidx]
    exact Nat.mod_lt _ (by omega)
  · rintro ⟨m, hm⟩
    rw [rotateApiKey_iterate_idx n k st hidx, hm, Nat.add_mul_mod_self_left]
    exact Nat.mod_eq_of_lt hidx

/-- C8 witness: 6 rotations over 3 credentials bring the cursor back to 1. -/
theorem c8_witness :
    ((rotateApiKey 3)^[6] ⟨1, fun _ => none⟩).idx = 1 :=
  (c8_rotate_cycle 3 6 ⟨1, fun _ => none⟩ (by decide) (by decide)).2.2.2 ⟨2, rfl⟩

/-- C9 counterexample: after `updateInterests(football)` the interests
accumulator holds `sports`; `clearHistory` leaves it untouched — the
claim requires every derived keyword/interest accumulator to be emptied
— and it also overwrites `lastActivity` (0 → 999), breaking the claimed
frame condition that only history and the accumulators change. -/
theorem c9_counterexample :
    (clearHistory 999 (updateInterests ("football") (newSessionV1 0 0))).interests =
      ["sports"] ∧
    (clearHistory 999 (updateInterests ("football") (newSessionV1 0 0))).interests ≠ [] ∧
    (updateInterests ("football") (newSessionV1 0 0)).lastActivity = 0 ∧
    (clearHistory 999 (updateInterests ("football") (newSessionV1 0 0))).lastActivity = 999 :=
  ⟨rfl, by decide, rfl, rfl⟩

/-- C9 amended: `clearHistory` empties the history and the keyword
accumulator (`contextKeywords`) and refreshes `lastActivity` to the call
time; it leaves `messageCount`, the language preference, the interests
accumulator, and every other field unchanged. -/
theorem c9_amended_clear_history :
    ∀ (s : SessionV1) (now : Nat),
      (clearHistory now s).conversationHistory = [] ∧
      (clearHistory now s).contextKeywords = [] ∧
      (clearHistory now s).lastActivity = now ∧
      (clearHistory now s).messageCount = s.messageCount ∧
      (clearHistory now s).preferredLanguage = s.preferredLanguage ∧
      (clearHistory now s).interests = s.interests ∧
      (clearHistory now s).personality = s.personality ∧
      (clearHistory now s).userId = s.userId ∧
      (clearHistory now s).created = s.created :=
  fun _ _ => ⟨rfl, rfl, rfl, rfl, rfl, rfl, rfl, rfl, rfl⟩

/-- C10: on a non-command, non-creator-query message, the pipeline
appends the user entry (and increments `messageCount`) before the
upstream call; when the upstream call fails, that entry and the
incremented counter remain — the history ends in a user entry with no
matching assistant entry, with no rollback. -/
theorem c10_no_rollback :
    ∀ (s : SessionV1) (text msg : String) (now : Nat),
      isCommand text = false → isCreatorQuery text = false →
      (handleTextMessage now text (Upstream.fail msg) s).messageCount =
        s.messageCount + 1 ∧
      (handleTextMessage now text (Upstream.fail msg) s).conversationHistory =
        takeLast 12 (s.conversationHistory ++ [⟨"user", text, now⟩]) ∧
      (handleTextMessage now text (Upstream.fail msg) s).conversationHistory.getLast? =
        some ⟨"user", text, now⟩ := by
  intro s text msg now hcmd hcq
  have hred : handleTextMessage now text (Upstream.fail msg) s =
      addMessage now ("user") text (updateInterests text s) := by
    simp [handleTextMessage, hcmd, hcq]
  refine ⟨?_, ?_, ?_⟩ <;> rw [hred]
  · rfl
  · show pushCap 12 s.conversationHistory ⟨"user", text, now⟩ = _
    exact pushCap_eq_takeLast 12 s.conversationHistory ⟨"user", text, now⟩
  · show (pushCap 12 s.conversationHistory ⟨"user", text, now⟩).getLast? = _
    rw [pushCap_eq_takeLast]
    exact getLast?_takeLast_concat 12 (by omega) _ _

/-- C10 witness: a failed turn on a fresh session leaves exactly the user
entry and `messageCount = 1`. -/
theorem c10_witness :
    (handleTextMessage 7 ("hello there") (Upstream.fail ("boom"))
      (newSessionV1 0 0)).messageCount = 1 ∧
    (handleTextMessage 7 ("hello there") (Upstream.fail ("boom"))
      (newSessionV1 0 0)).conversationHistory.getLast? =
        some ⟨"user", "hello there", 7⟩ :=
  ⟨(c10_no_rollback (newSessionV1 0 0) ("hello there") ("boom") 7 (by decide) (by decide)).1,
   (c10_no_rollback (newSessionV1 0 0) ("hello there") ("boom") 7 (by decide) (by decide)).2.2⟩

end ChatWME
